import Mathlib

/-
  Verification development for the Mython interpreter.

  The lexer (lexer.cpp) is embedded over byte lists: a `List Nat` is one
  line of input bytes (as produced by `getline`), and the whole input is a
  `List (List Nat)`.  The runtime (runtime.cpp) and the executable AST
  (statement.cpp) are embedded with an explicit heap of class instances,
  because instances are the only mutable, aliased objects: an
  `ObjectHolder` to an instance is the instance's heap index.
  Nonterminating C++ loops and unbounded recursion through method calls
  are modelled with fuel; a result of `none` / `timeout` corresponds to a
  run of the C++ program that does not terminate at that depth.
-/

namespace Mython

/-! ## Lexer (lexer.cpp) -/

inductive Token where
  | number (value : Nat)
  | id (value : List Nat)
  | str (value : List Nat)
  | char (value : Nat)
  | classKw
  | returnKw
  | ifKw
  | elseKw
  | defKw
  | newline
  | printKw
  | indent
  | dedent
  | andKw
  | orKw
  | notKw
  | eqOp
  | notEqOp
  | lessOrEqOp
  | greaterOrEqOp
  | noneKw
  | trueKw
  | falseKw
  | eofTok
deriving DecidableEq

/-- Convenience: the byte values of an ASCII string (used to write byte
lists readably; the C++ code works on `std::string`). -/
def ascii (s : String) : List Nat :=
  s.toList.map Char.toNat

/-- `isdigit` on ASCII bytes. -/
def isDigitB (c : Nat) : Bool :=
  48 ≤ c && c ≤ 57

/-- `isalpha` on ASCII bytes. -/
def isAlphaB (c : Nat) : Bool :=
  (65 ≤ c && c ≤ 90) || (97 ≤ c && c ≤ 122)

/-- `isalnum` on ASCII bytes. -/
def isAlnumB (c : Nat) : Bool :=
  isDigitB c || isAlphaB c

/-- The `SPECIAL_OPERATORS` set of lexer.cpp: `= ! < >`. -/
def isSpecialOperator (c : Nat) : Bool :=
  c == 61 || c == 33 || c == 60 || c == 62

/-- `IsSpecialChar` of lexer.cpp. -/
def isSpecialChar (c : Nat) : Bool :=
  c == 46 || c == 44 || c == 40 || c == 43 || c == 41 || c == 45 || c == 42 ||
  c == 47 || c == 58 || c == 64 || c == 37 || c == 36 || c == 94 || c == 38 ||
  c == 59 || c == 63 || c == 61 || c == 60 || c == 62 || c == 33 || c == 123 ||
  c == 125 || c == 91 || c == 93

/-- The `SPECIAL_SYMBOLS` set of lexer.h: `' " n t` (escapable characters). -/
def isSpecialSymbol (c : Nat) : Bool :=
  c == 39 || c == 34 || c == 110 || c == 116

/-- Translation of an escaped character inside `ReadString`. -/
def escTranslate (c : Nat) : Nat :=
  if c == 110 then 10 else if c == 116 then 9 else c

/--
The loop of `ReadString` (lexer.cpp).  Returns the collected characters,
the unconsumed remainder of the stream, and the last character read into
`c` (`255` models `(char)-1`, the value `c` holds after `get()` fails at
end of stream; a genuine `0xFF` byte in the stream is indistinguishable
from it in the C++ code as well).  Note that when `get()` fails at end of
stream, the C++ loop still runs once with `c = (char)-1`: if the
predicate accepts it, the `0xFF` byte is appended to the result.
-/
def readStrLoop (pred : Nat → Bool) : List Nat → List Nat × List Nat × Nat
  | [] => (if pred 255 then [255] else [], [], 255)
  | c :: rest =>
    if !(pred c) then ([], rest, c)
    else if c == 92 then
      match rest with
      | [] => ([], [], 92)
      | e :: rest2 =>
        let r := readStrLoop pred rest2
        ((if isSpecialSymbol e then escTranslate e :: r.1 else r.1), r.2.1, r.2.2)
    else
      let r := readStrLoop pred rest
      (c :: r.1, r.2.1, r.2.2)

/--
`ReadString` (lexer.cpp): run the loop, then put the stopping character
back unless it was `(char)-1` or a quote (quotes are deliberately
swallowed).
-/
def readString (pred : Nat → Bool) (input : List Nat) : List Nat × List Nat :=
  let r := readStrLoop pred input
  if r.2.2 != 255 && !(pred r.2.2) && r.2.2 != 39 && r.2.2 != 34 then
    (r.1, r.2.2 :: r.2.1)
  else
    (r.1, r.2.1)

/-- The `KEY_WORDS_TOKEN` table of lexer.cpp. -/
def keyWordTable : List (List Nat × Token) :=
  [(ascii "class", .classKw), (ascii "return", .returnKw), (ascii "if", .ifKw),
   (ascii "else", .elseKw), (ascii "def", .defKw), (ascii "print", .printKw),
   (ascii "and", .andKw), (ascii "or", .orKw), (ascii "not", .notKw),
   (ascii "None", .noneKw), (ascii "True", .trueKw), (ascii "False", .falseKw)]

/-- `KEY_WORDS_TOKEN.find(word)`. -/
def keyWordToken (w : List Nat) : Option Token :=
  (keyWordTable.find? (fun p => p.1 == w)).map Prod.snd

/-- `Lexer::LoadWord`: keyword lookup, falling back to an identifier. -/
def loadWordToken (w : List Nat) : Token :=
  match keyWordToken w with
  | some t => t
  | none => Token.id w

/-- `stoi` on the digit string collected by `Lexer::LoadNumber`. -/
def digitsToNat (ds : List Nat) : Nat :=
  ds.foldl (fun a d => a * 10 + (d - 48)) 0

/-- The `SPECIAL_OPERATORS_TOKEN` table: the two-character operator whose
first character is `c` and whose second is `=`. -/
def signToken (c : Nat) : Token :=
  if c == 61 then .eqOp
  else if c == 33 then .notEqOp
  else if c == 60 then .lessOrEqOp
  else .greaterOrEqOp

/--
One dispatch step of the `Lexer::LoadTokens` loop, keyed on the next
unconsumed character (the C++ loop tests, in order: space, `#`, digit,
quote, word start, special character; each test inspects the current
`peek()` after the previous action consumed its characters, so the loop
is equivalent to this per-character dispatch).
-/
inductive LexStep where
  | emit (t : Token) (rest : List Nat)
  | skip (rest : List Nat)
  | stop
  | stuck

def lexStep (c : Nat) (rest : List Nat) : LexStep :=
  if c == 32 then .skip rest
  else if c == 35 then .stop
  else if isDigitB c then
    let r := readString isDigitB (c :: rest)
    .emit (Token.number (digitsToNat r.1)) r.2
  else if c == 34 || c == 39 then
    let r := readString (fun x => x != c) rest
    .emit (Token.str r.1) r.2
  else if c == 95 || isAlphaB c then
    let r := readString (fun x => x == 95 || isAlnumB x) (c :: rest)
    .emit (loadWordToken r.1) r.2
  else if isSpecialOperator c then
    match rest with
    | 61 :: rest2 => .emit (signToken c) rest2
    | _ => .emit (Token.char c) rest
  else if isSpecialChar c then .emit (Token.char c) rest
  else .stuck

/--
`Lexer::LoadTokens` (lexer.cpp): tokenize the remainder of one line.  A
character on which the C++ loop makes no progress (it would spin forever)
yields `none`; the fuel only bounds that same loop, so `none` always
means the C++ lexer does not terminate on this line.
-/
def loadTokens : Nat → List Nat → Option (List Token)
  | 0, _ => none
  | _ + 1, [] => some []
  | fuel + 1, c :: rest =>
    match lexStep c rest with
    | .emit t r => (loadTokens fuel r).map (fun ts => t :: ts)
    | .skip r => loadTokens fuel r
    | .stop => some []
    | .stuck => none

/-- `Lexer::LoadIndent`: while the stored indent is below the line's
leading-space count, push one `INDENT` and add two.  Returns the emitted
tokens and the new indent. -/
def loadIndent (target ind : Nat) : List Token × Nat :=
  if h : ind < target then
    let r := loadIndent target (ind + 2)
    (Token.indent :: r.1, r.2)
  else
    ([], ind)
termination_by target - ind
decreasing_by omega

/-- `Lexer::LoadDedent`: while the stored indent is above the line's
leading-space count, push one `DEDENT` and subtract two. -/
def loadDedent (target ind : Nat) : List Token × Nat :=
  if h : target < ind then
    let r := loadDedent target (ind - 2)
    (Token.dedent :: r.1, r.2)
  else
    ([], ind)
termination_by ind - target
decreasing_by omega

/-- Leading-space count of a line plus the remainder (the counting loop
inside `Lexer::LoadTab`). -/
def countSpaces : List Nat → Nat × List Nat
  | 32 :: rest =>
    let r := countSpaces rest
    (r.1 + 1, r.2)
  | l => (0, l)

/-- `StringIsComment` (lexer.cpp). -/
def stringIsComment : List Nat → Bool
  | [] => true
  | 32 :: rest => stringIsComment rest
  | 35 :: _ => true
  | _ :: _ => false

/-- `Lexer::LoadEndl`: append one `NEWLINE` unless the token vector is
empty or already ends in a `NEWLINE`. -/
def endlTokens (ts : List Token) : List Token :=
  match ts.getLast? with
  | none => ts
  | some Token.newline => ts
  | some _ => ts ++ [Token.newline]

/--
`Lexer::ParseString` plus `LoadEndl` for one non-comment line: handle the
leading indentation (`LoadTab`: count spaces, then emit INDENTs when the
count grew and DEDENTs otherwise — a line with no leading space runs
`LoadDedent(0)`, which coincides with the dedent branch at `i = 0`), then
tokenize the rest of the line.  The state is the accumulated token vector
and the current `indent_size_`.
-/
def lexLine (fuel : Nat) (acc : List Token × Nat) (line : List Nat) :
    Option (List Token × Nat) :=
  let s := countSpaces line
  let tab := if acc.2 < s.1 then loadIndent s.1 acc.2 else loadDedent s.1 acc.2
  match loadTokens fuel s.2 with
  | none => none
  | some lineToks => some (endlTokens (acc.1 ++ tab.1 ++ lineToks), tab.2)

/-- The `getline` loop of `Lexer::ParseTextOnTokens`: comment lines are
skipped entirely. -/
def lexLines (fuel : Nat) : List (List Nat) → List Token × Nat → Option (List Token × Nat)
  | [], acc => some acc
  | line :: rest, acc =>
    if stringIsComment line then lexLines fuel rest acc
    else
      match lexLine fuel acc line with
      | none => none
      | some acc2 => lexLines fuel rest acc2

/-- `Lexer::ParseTextOnTokens`: lex every line, then emit the closing
DEDENTs (`LoadDedent()` back to zero) and the final `EOF`. -/
def parseTextOnTokens (fuel : Nat) (lines : List (List Nat)) : Option (List Token) :=
  match lexLines fuel lines ([], 0) with
  | none => none
  | some acc =>
    let d := loadDedent 0 acc.2
    some (acc.1 ++ d.1 ++ [Token.eofTok])

/-! ## Runtime value model (runtime.cpp) and executable AST (statement.cpp)

The AST node kinds embedded here are the ones the verified properties
are about: literals, variable access, assignment, field assignment,
`NewInstance`, `MethodCall`, `Compound`, `Return`, `MethodBody`,
`ClassDefinition`, `Print`, `Or`, `And` and `IfElse`.

The literal node `const` stands for the `ValueStatement` literal nodes
and the `None` node declared in statement.h.  Modelled from the spec:
statement.h is not among the sources; per the spec, `NumberLit`,
`StringLit`, `BoolLit` and `NoneLit` evaluate to the corresponding value
without touching the environment or the output.

`NewInstance` in statement.cpp calls `cls_.HasMethod(...)`,
`cls_.Call(...)` and copy-constructs `runtime::ClassInstance{cls_}` —
with the class interface of runtime.cpp (where `HasMethod` and `Call`
exist only on `ClassInstance`), its member `cls_` is a
`runtime::ClassInstance` owned by the AST node itself and shared by all
executions of that node.  The embedding gives that member instance a heap
cell, recorded in the node as `ref`.
-/

mutual

inductive Stmt where
  | const (value : Option Value)
  | variableValue (dottedIds : List String)
  | assignment (var : String) (rv : Stmt)
  | fieldAssignment (objectIds : List String) (fieldName : String) (rv : Stmt)
  | newInstance (ref : Nat) (args : List Stmt)
  | methodCall (object : Stmt) (methodName : String) (args : List Stmt)
  | compound (statements : List Stmt)
  | returnStmt (statement : Stmt)
  | methodBody (body : Stmt)
  | classDefinition (cls : Class)
  | print (args : List Stmt)
  | orStmt (lhs rhs : Stmt)
  | andStmt (lhs rhs : Stmt)
  | ifElse (condition ifBody : Stmt) (elseBody : Option Stmt)

inductive Value where
  | number (v : Int)
  | str (v : List Char)
  | bool (v : Bool)
  | cls (c : Class)
  | inst (id : Nat)

inductive Class where
  | mk (name : String) (methods : List Method) (parent : Option Class)

inductive Method where
  | mk (name : String) (formalParams : List String) (body : Stmt)

end

def Class.name : Class → String
  | .mk n _ _ => n

def Class.methods : Class → List Method
  | .mk _ ms _ => ms

def Class.parent : Class → Option Class
  | .mk _ _ p => p

def Method.name : Method → String
  | .mk n _ _ => n

def Method.formalParams : Method → List String
  | .mk _ ps _ => ps

def Method.body : Method → Stmt
  | .mk _ _ b => b

/-- An `ObjectHolder`: either the empty holder or a handle to a value. -/
abbrev Obj := Option Value

/-- A `runtime::Closure` (`unordered_map<string, ObjectHolder>`), as an
association list; insertion order is irrelevant to the operations. -/
abbrev Closure := List (String × Obj)

/-- `closure.count(k) / closure.at(k)` combined: the held holder, if the
key is present. -/
def closureFind (cl : Closure) (k : String) : Option Obj :=
  (cl.find? (fun p => p.1 == k)).map Prod.snd

/-- `closure[k] = v`: insert or overwrite. -/
def closureSet : Closure → String → Obj → Closure
  | [], k, v => [(k, v)]
  | (k', v') :: rest, k, v =>
    if k' == k then (k', v) :: rest else (k', v') :: closureSet rest k v

/-- `closure.emplace(k, v)`: insert only when the key is absent. -/
def closureEmplace (cl : Closure) (k : String) (v : Obj) : Closure :=
  match closureFind cl k with
  | some _ => cl
  | none => cl ++ [(k, v)]

/-- A `runtime::ClassInstance`: a class reference plus a field closure. -/
structure Inst where
  cls : Class
  fields : Closure

/-- The mutable execution state: the heap of class instances (the objects
with identity) and the output stream of the `Context`. -/
structure St where
  heap : List Inst
  output : String

/-- `Class::GetMethod` (runtime.cpp): first method with the given *name*
in this class's list, else the parent's lookup. -/
def Class.getMethod : Class → String → Option Method
  | .mk _ ms p, mname =>
    match ms.find? (fun m => m.name == mname), p with
    | some m, _ => some m
    | none, some par => par.getMethod mname
    | none, none => none

/-- `ClassInstance::HasMethod` (runtime.cpp), as a function of the
instance's class: `GetMethod` found something and its formal-parameter
count matches. -/
def Class.hasMethod (c : Class) (mname : String) (argumentCount : Nat) : Bool :=
  match c.getMethod mname with
  | some m => m.formalParams.length == argumentCount
  | none => false

/-- All methods of the child-then-parent chain, in lookup order (used to
state what `GetMethod` computes). -/
def chainMethods : Class → List Method
  | .mk _ ms p =>
    ms ++ (match p with
           | some par => chainMethods par
           | none => [])

/-- `runtime::IsTrue` (runtime.cpp). -/
def IsTrue : Obj → Bool
  | some (.bool b) => b
  | some (.number n) => n != 0
  | some (.str s) => !s.isEmpty
  | _ => false

/-- `std::string` `operator<`: byte-wise lexicographic comparison. -/
def strLt : List Char → List Char → Bool
  | [], [] => false
  | [], _ :: _ => true
  | _ :: _, [] => false
  | a :: as, b :: bs =>
    if a.toNat < b.toNat then true
    else if b.toNat < a.toNat then false
    else strLt as bs

/-- `VariableValue::Execute` (statement.cpp): resolve a dotted path,
descending through instance field closures; it reads but never writes,
so it is a pure function of the closure and the heap. -/
def executeVariable (closure : Closure) (heap : List Inst) : List String → Except String Obj
  | [] => .ok none
  | [fieldName] =>
    match closureFind closure fieldName with
    | some h => .ok h
    | none => .error "Cant find var"
  | fieldName :: rest =>
    match closureFind closure fieldName with
    | none => .error "Cant find var"
    | some h =>
      match h with
      | some (.inst id) =>
        match heap[id]? with
        | some inst => executeVariable inst.fields heap rest
        | none => .error "This isn't object"
      | _ => .error "This isn't object"

/-- The per-parameter `closure.emplace(formal_params.at(i), actual_args[i])`
loop of `ClassInstance::Call`. -/
def buildParams (ps : List String) (as : List Obj) : Closure :=
  (ps.zip as).foldl (fun cl pa => closureEmplace cl pa.1 pa.2) []

/-- The outcome of executing a node: a normal value, a thrown
`std::runtime_error`, a thrown `RuntimeReturnExeption` carrying a holder,
or fuel exhaustion (modelling nontermination). -/
inductive Res (α : Type) where
  | ok (v : α)
  | err (msg : String)
  | ret (v : Obj)
  | timeout

/-- The write `class_inst_ptr->Fields()[field_name_] = v` of
`FieldAssignment::Execute`, performed after the right-hand side has been
evaluated (C++17 sequences the right operand of `=` first), plus the
returned holder. -/
def fieldAssignResult (id : Nat) (fieldName : String) (v : Obj) (closure : Closure)
    (st : St) : Res Obj × Closure × St :=
  match st.heap[id]? with
  | some inst =>
    (.ok v, closure,
      ⟨st.heap.set id ⟨inst.cls, closureSet inst.fields fieldName v⟩, st.output⟩)
  | none => (.err "Cant find field", closure, st)

/-- The tail of `NewInstance::Execute`:
`ObjectHolder::Own(runtime::ClassInstance{cls_})` — append a copy of the
node's member instance (as it stands after `__init__`, if any, has run)
to the heap and return an owning holder of the copy. -/
def newInstanceResult (ref : Nat) (closure : Closure) (st : St) :
    Res Obj × Closure × St :=
  match st.heap[ref]? with
  | some member2 =>
    (.ok (some (.inst st.heap.length)), closure, ⟨st.heap ++ [member2], st.output⟩)
  | none => (.err "Nothing to call", closure, st)

mutual

/-- `Statement::Execute(closure, context)` for each embedded node kind
(statement.cpp).  Returns the result, the (possibly mutated) closure and
the (possibly mutated) state.  Fuel is consumed only when a method body
is entered, mirroring the fact that the C++ recursion is unbounded only
through method calls. -/
def execute (fuel : Nat) (s : Stmt) (closure : Closure) (st : St) :
    Res Obj × Closure × St :=
  match s with
  | .const v => (.ok v, closure, st)
  | .variableValue ids =>
    match executeVariable closure st.heap ids with
    | .ok h => (.ok h, closure, st)
    | .error m => (.err m, closure, st)
  | .assignment var rv =>
    match execute fuel rv closure st with
    | (.ok v, c1, st1) => (.ok v, closureSet c1 var v, st1)
    | other => other
  | .fieldAssignment ids fieldName rv =>
    match executeVariable closure st.heap ids with
    | .error m => (.err m, closure, st)
    | .ok obj =>
      match obj with
      | some (.inst id) =>
        match execute fuel rv closure st with
        | (.ok v, c1, st1) => fieldAssignResult id fieldName v c1 st1
        | other => other
      | _ => (.err "Cant find field", closure, st)
  | .newInstance ref args =>
    match executeArgs fuel args closure st with
    | (.ok actualArgs, c1, st1) => execNewOn fuel ref args.length actualArgs c1 st1
    | (.err m, c1, st1) => (.err m, c1, st1)
    | (.ret v, c1, st1) => (.ret v, c1, st1)
    | (.timeout, c1, st1) => (.timeout, c1, st1)
  | .methodCall object methodName args =>
    match execute fuel object closure st with
    | (.ok obj, c1, st1) => execCallOn fuel obj methodName args c1 st1
    | other => other
  | .compound statements => executeSeq fuel statements closure st
  | .returnStmt statement =>
    match execute fuel statement closure st with
    | (.ok v, c1, st1) => (.ret v, c1, st1)
    | other => other
  | .methodBody body =>
    match execute fuel body closure st with
    | (.ret v, c1, st1) => (.ok v, c1, st1)
    | (.ok _, c1, st1) => (.ok none, c1, st1)
    | other => other
  | .classDefinition c => (.ok none, closureSet closure c.name (some (.cls c)), st)
  | .print args =>
    match printLoop fuel args true closure st with
    | (.ok _, c1, st1) => (.ok none, c1, ⟨st1.heap, st1.output ++ "\n"⟩)
    | (.err m, c1, st1) => (.err m, c1, st1)
    | (.ret v, c1, st1) => (.ret v, c1, st1)
    | (.timeout, c1, st1) => (.timeout, c1, st1)
  | .orStmt lhs rhs =>
    match execute fuel lhs closure st with
    | (.ok l, c1, st1) =>
      if IsTrue l then (.ok (some (.bool true)), c1, st1)
      else
        match execute fuel rhs c1 st1 with
        | (.ok r, c2, st2) =>
          if IsTrue r then (.ok (some (.bool true)), c2, st2)
          else (.ok (some (.bool false)), c2, st2)
        | other => other
    | other => other
  | .andStmt lhs rhs =>
    match execute fuel lhs closure st with
    | (.ok l, c1, st1) =>
      if !(IsTrue l) then (.ok (some (.bool false)), c1, st1)
      else
        match execute fuel rhs c1 st1 with
        | (.ok r, c2, st2) =>
          if IsTrue l && IsTrue r then (.ok (some (.bool true)), c2, st2)
          else (.ok (some (.bool false)), c2, st2)
        | other => other
    | other => other
  | .ifElse condition ifBody elseBody =>
    match execute fuel condition closure st with
    | (.ok v, c1, st1) =>
      if IsTrue v then execute fuel ifBody c1 st1
      else executeOpt fuel elseBody c1 st1
    | other => other
termination_by (fuel, sizeOf s, 1)

/-- The else branch of `IfElse::Execute`: the `else_body_` pointer may be
null, in which case the statement yields empty. -/
def executeOpt (fuel : Nat) (o : Option Stmt) (closure : Closure) (st : St) :
    Res Obj × Closure × St :=
  match o with
  | some s => execute fuel s closure st
  | none => (.ok none, closure, st)
termination_by (fuel, sizeOf o, 1)

/-- The body of `MethodCall::Execute` after the receiver has been
evaluated: only a receiver that is an instance with a matching-arity
method leads to argument evaluation and a call; every other receiver
silently yields the empty holder. -/
def execCallOn (fuel : Nat) (obj : Obj) (methodName : String) (args : List Stmt)
    (closure : Closure) (st : St) : Res Obj × Closure × St :=
  match obj with
  | some (.inst id) =>
    match st.heap[id]? with
    | some inst =>
      if inst.cls.hasMethod methodName args.length then
        match executeArgs fuel args closure st with
        | (.ok actualArgs, c2, st2) =>
          let r := instanceCall fuel id methodName actualArgs st2
          (r.1, c2, r.2)
        | (.err m, c2, st2) => (.err m, c2, st2)
        | (.ret v, c2, st2) => (.ret v, c2, st2)
        | (.timeout, c2, st2) => (.timeout, c2, st2)
      else (.ok none, closure, st)
    | none => (.ok none, closure, st)
  | _ => (.ok none, closure, st)
termination_by (fuel, sizeOf args, 2)
decreasing_by
  all_goals first
    | decreasing_tactic
    | (cases args <;> decreasing_tactic)

/-- The body of `NewInstance::Execute` after the arguments have been
evaluated: call `__init__` on the node's member instance when the arity
matches, then return an owning copy of the member. -/
def execNewOn (fuel : Nat) (ref argCount : Nat) (actualArgs : List Obj)
    (closure : Closure) (st : St) : Res Obj × Closure × St :=
  match st.heap[ref]? with
  | none => (.err "Nothing to call", closure, st)
  | some member =>
    if member.cls.hasMethod "__init__" argCount then
      match instanceCall fuel ref "__init__" actualArgs st with
      | (.ok _, st2) => newInstanceResult ref closure st2
      | (.err m, st2) => (.err m, closure, st2)
      | (.ret v, st2) => (.ret v, closure, st2)
      | (.timeout, st2) => (.timeout, closure, st2)
    else (.ok (some (.inst st.heap.length)), closure, ⟨st.heap ++ [member], st.output⟩)
termination_by (fuel, 0, 2)

/-- `Compound::Execute`: run the children in order, ignoring their
values; any exception aborts the loop and propagates. -/
def executeSeq (fuel : Nat) (statements : List Stmt) (closure : Closure) (st : St) :
    Res Obj × Closure × St :=
  match statements with
  | [] => (.ok none, closure, st)
  | s :: rest =>
    match execute fuel s closure st with
    | (.ok _, c1, st1) => executeSeq fuel rest c1 st1
    | other => other
termination_by (fuel, sizeOf statements, 1)

/-- The left-to-right `actual_args` evaluation loop shared by
`NewInstance::Execute` and `MethodCall::Execute`. -/
def executeArgs (fuel : Nat) (args : List Stmt) (closure : Closure) (st : St) :
    Res (List Obj) × Closure × St :=
  match args with
  | [] => (.ok [], closure, st)
  | a :: rest =>
    match execute fuel a closure st with
    | (.ok v, c1, st1) =>
      match executeArgs fuel rest c1 st1 with
      | (.ok vs, c2, st2) => (.ok (v :: vs), c2, st2)
      | other => other
    | (.err m, c1, st1) => (.err m, c1, st1)
    | (.ret v, c1, st1) => (.ret v, c1, st1)
    | (.timeout, c1, st1) => (.timeout, c1, st1)
termination_by (fuel, sizeOf args, 1)

/-- The argument loop of `Print::Execute`: a single-space separator
before every argument but the first, each value rendered through the
printer, the empty holder rendered as `None`. -/
def printLoop (fuel : Nat) (args : List Stmt) (firstArg : Bool) (closure : Closure)
    (st : St) : Res Unit × Closure × St :=
  match args with
  | [] => (.ok (), closure, st)
  | a :: rest =>
    let st' : St := if firstArg then st else ⟨st.heap, st.output ++ " "⟩
    match execute fuel a closure st' with
    | (.ok obj, c1, st1) => printEvaluated fuel obj rest c1 st1
    | (.err m, c1, st1) => (.err m, c1, st1)
    | (.ret v, c1, st1) => (.ret v, c1, st1)
    | (.timeout, c1, st1) => (.timeout, c1, st1)
termination_by (fuel, sizeOf args, 1)

/-- One printed argument of `Print::Execute`: a non-empty holder is
rendered through the value printer, the empty holder as the text
`None`; then the loop continues. -/
def printEvaluated (fuel : Nat) (obj : Obj) (rest : List Stmt) (closure : Closure)
    (st : St) : Res Unit × Closure × St :=
  match obj with
  | some v =>
    match printObject fuel v st with
    | (.ok _, st2) => printLoop fuel rest false closure st2
    | (.err m, st2) => (.err m, closure, st2)
    | (.ret r, st2) => (.ret r, closure, st2)
    | (.timeout, st2) => (.timeout, closure, st2)
  | none => printLoop fuel rest false closure ⟨st.heap, st.output ++ "None"⟩
termination_by (fuel, sizeOf rest, 2)
decreasing_by
  all_goals first
    | decreasing_tactic
    | (cases rest <;> decreasing_tactic)

/-- `Object::Print` for each value kind.  `Number::Print` and
`String::Print` are declared in runtime.h (not among the sources);
modelled from the spec: a Number renders as base-10 digits and a String
as its raw characters.  `Bool::Print` and `Class::Print` are in
runtime.cpp.  `ClassInstance::Print` renders through `__str__()` when
present; otherwise the C++ prints the instance's address
(`os << this`), an implementation-defined identity text modelled here as
`0x` followed by the heap index. -/
def printObject (fuel : Nat) (v : Value) (st : St) : Res Unit × St :=
  match v with
  | .number n => (.ok (), ⟨st.heap, st.output ++ toString n⟩)
  | .str s => (.ok (), ⟨st.heap, st.output ++ String.mk s⟩)
  | .bool b => (.ok (), ⟨st.heap, st.output ++ (if b then "True" else "False")⟩)
  | .cls c => (.ok (), ⟨st.heap, st.output ++ "Class " ++ c.name⟩)
  | .inst id =>
    match st.heap[id]? with
    | none => (.err "Nothing to call", st)
    | some inst =>
      if inst.cls.hasMethod "__str__" 0 then
        match fuel with
        | 0 => (.timeout, st)
        | f + 1 =>
          match instanceCall (f + 1) id "__str__" [] st with
          | (.ok obj, st1) => printStrResult f obj st1
          | (.err m, st1) => (.err m, st1)
          | (.ret r, st1) => (.ret r, st1)
          | (.timeout, st1) => (.timeout, st1)
      else (.ok (), ⟨st.heap, st.output ++ "0x" ++ toString id⟩)
termination_by (fuel, 0, 1)

/-- The tail of `ClassInstance::Print`: the holder produced by
`__str__` is itself rendered through the printer when non-empty. -/
def printStrResult (fuel : Nat) (obj : Obj) (st : St) : Res Unit × St :=
  match obj with
  | some v2 => printObject fuel v2 st
  | none => (.ok (), st)
termination_by (fuel, 0, 2)

/-- `ClassInstance::Call` (runtime.cpp) on the instance at heap index
`id`: when a method of that name and arity resolves, run its body in a
fresh closure holding the formal parameters and a non-owning `self`;
otherwise throw `Nothing to call`.  The body's closure is discarded when
the activation ends. -/
def instanceCall (fuel : Nat) (id : Nat) (methodName : String) (actualArgs : List Obj)
    (st : St) : Res Obj × St :=
  match st.heap[id]? with
  | none => (.err "Nothing to call", st)
  | some inst =>
    match inst.cls.getMethod methodName with
    | some m =>
      if m.formalParams.length == actualArgs.length then
        let mcl := closureEmplace (buildParams m.formalParams actualArgs) "self"
          (some (.inst id))
        match fuel with
        | 0 => (.timeout, st)
        | f + 1 =>
          let r := execute f m.body mcl st
          (r.1, r.2.2)
      else (.err "Nothing to call", st)
    | none => (.err "Nothing to call", st)
termination_by (fuel, 0, 0)

end

/-- `runtime::Equal` (runtime.cpp): both empty holders are equal;
like-kind primitives compare payloads; an instance left operand
dispatches to `__eq__` and takes the truthiness of its result; anything
else throws. -/
def Equal (fuel : Nat) (lhs rhs : Obj) (st : St) : Res Bool × St :=
  match lhs, rhs with
  | none, none => (.ok true, st)
  | some (.number a), some (.number b) => (.ok (a == b), st)
  | some (.str a), some (.str b) => (.ok (a == b), st)
  | some (.bool a), some (.bool b) => (.ok (a == b), st)
  | some (.inst id), _ =>
    match st.heap[id]? with
    | some inst =>
      if inst.cls.hasMethod "__eq__" 1 then
        match instanceCall fuel id "__eq__" [rhs] st with
        | (.ok v, st1) => (.ok (IsTrue v), st1)
        | (.err m, st1) => (.err m, st1)
        | (.ret v, st1) => (.ret v, st1)
        | (.timeout, st1) => (.timeout, st1)
      else (.err "Cannot compare objects", st)
    | none => (.err "Cannot compare objects", st)
  | _, _ => (.err "Cannot compare objects", st)

/-- `runtime::Less` (runtime.cpp): two empty holders throw; like-kind
primitives compare; an instance left operand dispatches to `__lt__`. -/
def Less (fuel : Nat) (lhs rhs : Obj) (st : St) : Res Bool × St :=
  match lhs, rhs with
  | none, none => (.err "Cannot compare objects for less", st)
  | some (.number a), some (.number b) => (.ok (decide (a < b)), st)
  | some (.str a), some (.str b) => (.ok (strLt a b), st)
  | some (.bool a), some (.bool b) => (.ok (!a && b), st)
  | some (.inst id), _ =>
    match st.heap[id]? with
    | some inst =>
      if inst.cls.hasMethod "__lt__" 1 then
        match instanceCall fuel id "__lt__" [rhs] st with
        | (.ok v, st1) => (.ok (IsTrue v), st1)
        | (.err m, st1) => (.err m, st1)
        | (.ret v, st1) => (.ret v, st1)
        | (.timeout, st1) => (.timeout, st1)
      else (.err "Cannot compare objects for less", st)
    | none => (.err "Cannot compare objects for less", st)
  | _, _ => (.err "Cannot compare objects for less", st)

/-- `runtime::NotEqual`: `!Equal(lhs, rhs, context)`. -/
def NotEqual (fuel : Nat) (lhs rhs : Obj) (st : St) : Res Bool × St :=
  match Equal fuel lhs rhs st with
  | (.ok b, st1) => (.ok !b, st1)
  | other => other

/-- `runtime::LessOrEqual`: `Less(...) || Equal(...)` with C++
short-circuit evaluation of `||`. -/
def LessOrEqual (fuel : Nat) (lhs rhs : Obj) (st : St) : Res Bool × St :=
  match Less fuel lhs rhs st with
  | (.ok true, st1) => (.ok true, st1)
  | (.ok false, st1) => Equal fuel lhs rhs st1
  | other => other

/-- `runtime::Greater`: `!LessOrEqual(...)`. -/
def Greater (fuel : Nat) (lhs rhs : Obj) (st : St) : Res Bool × St :=
  match LessOrEqual fuel lhs rhs st with
  | (.ok b, st1) => (.ok !b, st1)
  | other => other

/-- `runtime::GreaterOrEqual`: `!Less(...)`. -/
def GreaterOrEqual (fuel : Nat) (lhs rhs : Obj) (st : St) : Res Bool × St :=
  match Less fuel lhs rhs st with
  | (.ok b, st1) => (.ok !b, st1)
  | other => other

/-! ## Predicates used to state the verified properties -/

/-- Occurrences of one token in a token stream. -/
def countTok (ts : List Token) (t : Token) : Nat :=
  ts.countP (fun x => x == t)

/-- A primitive value in the sense of the spec: `Number`, `String` or
`Bool`. -/
def isPrimitive : Value → Bool
  | .number _ => true
  | .str _ => true
  | .bool _ => true
  | _ => false

/-- Does this holder refer to a class instance? -/
def isInstanceObj : Obj → Bool
  | some (.inst _) => true
  | _ => false

/-- Does the holder refer to an instance whose child-then-parent class
chain defines a method with this name and exactly this arity? -/
def chainDefines (st : St) (v : Obj) (mname : String) (n : Nat) : Bool :=
  match v with
  | some (.inst id) =>
    match st.heap[id]? with
    | some inst =>
      (chainMethods inst.cls).any
        (fun m => m.name == mname && m.formalParams.length == n)
    | none => false
  | _ => false

/-! ## Concrete programs used as witnesses and counterexamples -/

/-- A parent class defining `f` with zero parameters. -/
def parentWithF : Class :=
  .mk "P" [.mk "f" [] (.compound [])] none

/-- A child of `parentWithF` defining `f` with one parameter. -/
def childWithF : Class :=
  .mk "C" [.mk "f" ["a"] (.compound [])] (some parentWithF)

/-- A class whose `__init__(p)` sets `self.x = 1` only when `p` is
truthy. -/
def ctorClass : Class :=
  .mk "C"
    [.mk "__init__" ["p"]
      (.methodBody (.ifElse (.variableValue ["p"])
        (.fieldAssignment ["self"] "x" (.const (some (.number 1)))) none))]
    none

/-- The state holding only the `NewInstance` node's member instance of
`ctorClass`, with no fields yet. -/
def st0C3 : St :=
  ⟨[⟨ctorClass, []⟩], ""⟩

/-- An instance cell of `ctorClass` whose field `x` holds `1`. -/
def cellX : Inst :=
  ⟨ctorClass, [("x", some (.number 1))]⟩

/-- A class with no methods at all. -/
def plainClass : Class :=
  .mk "D" [] none

/-- A class whose `__lt__` prints `lt` and returns `False` and whose
`__eq__` prints `eq` and returns `True` (side effects making each dunder
dispatch observable). -/
def cmpClass : Class :=
  .mk "Cmp"
    [.mk "__lt__" ["x"]
      (.methodBody (.compound
        [.print [.const (some (.str ("lt").data))],
         .returnStmt (.const (some (.bool false)))])),
     .mk "__eq__" ["x"]
      (.methodBody (.compound
        [.print [.const (some (.str ("eq").data))],
         .returnStmt (.const (some (.bool true)))]))]
    none

/-- The state holding one instance of `cmpClass` and empty output. -/
def cmpSt : St :=
  ⟨[⟨cmpClass, []⟩], ""⟩

/-- The token stream of the two-line program `if x:` / `  y = 1`. -/
def demoToks : List Token :=
  [.ifKw, .id (ascii "x"), .char 58, .newline, .indent,
   .id (ascii "y"), .char 61, .number 1, .newline, .dedent, .eofTok]

end Mython

namespace Mython

theorem find?_append_chain {α : Type} (p : α → Bool) (l₁ l₂ : List α) :
    (l₁ ++ l₂).find? p =
      match l₁.find? p with
      | some x => some x
      | none => l₂.find? p := by
  induction l₁ with
  | nil => simp
  | cons a t ih =>
    by_cases h : p a
    · simp [List.find?_cons_of_pos, h]
    · simp [List.find?_cons_of_neg, h, ih]

theorem keyWordToken_not_layout (w : List Nat) (t : Token)
    (h : keyWordToken w = some t) :
    (t == Token.indent) = false ∧ (t == Token.dedent) = false := by
  unfold keyWordToken at h
  cases hf : keyWordTable.find? (fun p => p.1 == w) with
  | none => rw [hf] at h; cases h
  | some p =>
    rw [hf] at h
    cases h
    have hm := List.mem_of_find?_eq_some hf
    simp only [keyWordTable, List.mem_cons, List.not_mem_nil, or_false] at hm
    rcases hm with h | h | h | h | h | h | h | h | h | h | h | h
    all_goals (subst h; decide)

theorem loadWordToken_not_layout (w : List Nat) :
    (loadWordToken w == Token.indent) = false ∧
    (loadWordToken w == Token.dedent) = false := by
  unfold loadWordToken
  split
  · exact keyWordToken_not_layout w _ (by assumption)
  · exact ⟨rfl, rfl⟩

theorem signToken_not_layout (c : Nat) :
    (signToken c == Token.indent) = false ∧
    (signToken c == Token.dedent) = false := by
  unfold signToken
  repeat' split
  all_goals decide

theorem lexStep_not_layout (c : Nat) (rest : List Nat) (t : Token) (r : List Nat)
    (h : lexStep c rest = .emit t r) :
    (t == Token.indent) = false ∧ (t == Token.dedent) = false := by
  unfold lexStep at h
  repeat' split at h
  all_goals cases h
  all_goals first
    | exact ⟨rfl, rfl⟩
    | exact loadWordToken_not_layout _
    | exact signToken_not_layout _

theorem loadTokens_no_layout :
    ∀ (fuel : Nat) (l : List Nat) (ts : List Token),
      loadTokens fuel l = some ts →
      countTok ts Token.indent = 0 ∧ countTok ts Token.dedent = 0 := by
  intro fuel
  induction fuel with
  | zero => intro l ts h; cases h
  | succ fu ih =>
    intro l ts h
    match l with
    | [] => cases h; simp [countTok]
    | c :: rest =>
      cases hs : lexStep c rest with
      | emit t r =>
        simp only [loadTokens, hs] at h
        cases ht : loadTokens fu r with
        | none => rw [ht] at h; cases h
        | some ts' =>
          rw [ht] at h
          cases h
          have h1 := ih r ts' ht
          have h2 := lexStep_not_layout c rest t r hs
          simp [countTok, List.countP_cons, h2.1, h2.2] at h1 ⊢
          exact h1
      | skip r => simp only [loadTokens, hs] at h; exact ih r ts h
      | stop => simp only [loadTokens, hs] at h; cases h; simp [countTok]
      | stuck => simp only [loadTokens, hs] at h; cases h

end Mython

namespace Mython

theorem countTok_cons_self (x : Token) (ts : List Token) :
    countTok (x :: ts) x = countTok ts x + 1 := by
  simp [countTok, List.countP_cons]

theorem countTok_cons_ne (x t : Token) (ts : List Token) (h : (x == t) = false) :
    countTok (x :: ts) t = countTok ts t := by
  simp [countTok, List.countP_cons, h]

theorem loadIndent_spec (target ind : Nat) :
    (loadIndent target ind).2 = ind + 2 * countTok (loadIndent target ind).1 Token.indent
    ∧ countTok (loadIndent target ind).1 Token.dedent = 0 := by
  unfold loadIndent
  split
  · have ih := loadIndent_spec target (ind + 2)
    dsimp only
    rw [countTok_cons_self, countTok_cons_ne _ _ _ (by decide)]
    obtain ⟨ih1, ih2⟩ := ih
    constructor
    · omega
    · exact ih2
  · simp [countTok]
termination_by target - ind
decreasing_by omega

theorem loadDedent_spec (target ind : Nat) (he : ind % 2 = 0) :
    (loadDedent target ind).2 % 2 = 0
    ∧ ind = (loadDedent target ind).2 + 2 * countTok (loadDedent target ind).1 Token.dedent
    ∧ countTok (loadDedent target ind).1 Token.indent = 0 := by
  unfold loadDedent
  split
  · have ih := loadDedent_spec target (ind - 2) (by omega)
    dsimp only
    rw [countTok_cons_self, countTok_cons_ne _ _ _ (by decide)]
    obtain ⟨ih1, ih2, ih3⟩ := ih
    exact ⟨ih1, by omega, ih3⟩
  · exact ⟨he, by simp [countTok], by simp [countTok]⟩
termination_by ind - target
decreasing_by omega

theorem loadDedent_zero (ind : Nat) (he : ind % 2 = 0) :
    (loadDedent 0 ind).2 = 0 := by
  unfold loadDedent
  split
  · exact loadDedent_zero (ind - 2) (by omega)
  · omega
termination_by ind
decreasing_by omega

theorem endlTokens_countTok (ts : List Token) (t : Token)
    (h : (Token.newline == t) = false) :
    countTok (endlTokens ts) t = countTok ts t := by
  unfold endlTokens
  split
  · rfl
  · rfl
  · simp [countTok, List.countP_append, List.countP_cons, h]

theorem lexLine_inv (fuel : Nat) (acc : List Token × Nat) (line : List Nat)
    (acc' : List Token × Nat)
    (he : acc.2 % 2 = 0)
    (hbal : 2 * countTok acc.1 Token.indent = 2 * countTok acc.1 Token.dedent + acc.2)
    (h : lexLine fuel acc line = some acc') :
    acc'.2 % 2 = 0 ∧
    2 * countTok acc'.1 Token.indent = 2 * countTok acc'.1 Token.dedent + acc'.2 := by
  simp only [lexLine] at h
  cases ht : loadTokens fuel (countSpaces line).2 with
  | none => rw [ht] at h; cases h
  | some lineToks =>
    rw [ht] at h
    have hlt := loadTokens_no_layout fuel _ _ ht
    cases h
    by_cases hc : acc.2 < (countSpaces line).1
    · have hi := loadIndent_spec (countSpaces line).1 acc.2
      simp only [if_pos hc]
      rw [endlTokens_countTok _ _ (by decide), endlTokens_countTok _ _ (by decide)]
      simp only [countTok, List.countP_append] at hi hlt hbal ⊢
      omega
    · have hd := loadDedent_spec (countSpaces line).1 acc.2 he
      simp only [if_neg hc]
      rw [endlTokens_countTok _ _ (by decide), endlTokens_countTok _ _ (by decide)]
      simp only [countTok, List.countP_append] at hd hlt hbal ⊢
      omega

theorem lexLines_inv :
    ∀ (fuel : Nat) (lines : List (List Nat)) (acc acc' : List Token × Nat),
      acc.2 % 2 = 0 →
      2 * countTok acc.1 Token.indent = 2 * countTok acc.1 Token.dedent + acc.2 →
      lexLines fuel lines acc = some acc' →
      acc'.2 % 2 = 0 ∧
      2 * countTok acc'.1 Token.indent = 2 * countTok acc'.1 Token.dedent + acc'.2 := by
  intro fuel lines
  induction lines with
  | nil => intro acc acc' he hb h; cases h; exact ⟨he, hb⟩
  | cons line rest ih =>
    intro acc acc' he hb h
    simp only [lexLines] at h
    by_cases hc : stringIsComment line
    · rw [if_pos hc] at h
      exact ih acc acc' he hb h
    · rw [if_neg hc] at h
      cases hl : lexLine fuel acc line with
      | none => rw [hl] at h; cases h
      | some acc2 =>
        rw [hl] at h
        have h2 := lexLine_inv fuel acc line acc2 he hb hl
        exact ih acc2 acc' h2.1 h2.2 h

end Mython

namespace Mython

/-- Claim C9: for every input, when lexing completes, the token stream
holds equally many INDENT and DEDENT tokens and its final token is EOF. -/
theorem lexer_indent_dedent_balance (fuel : Nat) (lines : List (List Nat))
    (ts : List Token) (h : parseTextOnTokens fuel lines = some ts) :
    countTok ts Token.indent = countTok ts Token.dedent ∧
    ts.getLast? = some Token.eofTok := by
  unfold parseTextOnTokens at h
  cases hl : lexLines fuel lines ([], 0) with
  | none => rw [hl] at h; cases h
  | some acc =>
    rw [hl] at h
    cases h
    have hinv := lexLines_inv fuel lines ([], 0) acc (by decide) (by simp [countTok]) hl
    have hd := loadDedent_spec 0 acc.2 hinv.1
    have hz := loadDedent_zero acc.2 hinv.1
    constructor
    · simp only [countTok, List.countP_append] at hinv hd ⊢
      have e1 : List.countP (fun x => x == Token.indent) [Token.eofTok] = 0 := by decide
      have e2 : List.countP (fun x => x == Token.dedent) [Token.eofTok] = 0 := by decide
      rw [e1, e2]
      omega
    · rw [List.getLast?_concat]

/-- Witness for C9 at the two-line program `if x:` / `  y = 1`. -/
theorem lexer_indent_dedent_balance_witness :
    countTok demoToks Token.indent = countTok demoToks Token.dedent ∧
    demoToks.getLast? = some Token.eofTok :=
  lexer_indent_dedent_balance 100 [ascii "if x:", ascii "  y = 1"] demoToks (by
    simp [parseTextOnTokens, lexLines, lexLine, loadTokens, lexStep, countSpaces,
      stringIsComment, loadDedent, loadIndent, readString, readStrLoop, endlTokens, ascii,
      loadWordToken, keyWordToken, keyWordTable, digitsToNat, isDigitB, isAlphaB, isAlnumB,
      isSpecialOperator, isSpecialChar, isSpecialSymbol, signToken, escTranslate, demoToks])

/-- Claim C2 (the code as it stands): the line `x = 'abc` whose string
literal is never terminated lexes without any error to a stream whose
third token is a String token holding `abc` plus a trailing `0xFF`
byte. -/
theorem unterminated_string_lexes_to_token :
    parseTextOnTokens 100 [ascii "x = 'abc"] =
      some [Token.id (ascii "x"), Token.char 61,
        Token.str (ascii "abc" ++ [255]), Token.newline, Token.eofTok] := by
  simp [parseTextOnTokens, lexLines, lexLine, loadTokens, lexStep, countSpaces,
    stringIsComment, loadDedent, loadIndent, readString, readStrLoop, endlTokens, ascii,
    loadWordToken, keyWordToken, keyWordTable, digitsToNat, isDigitB, isAlphaB, isAlnumB,
    isSpecialOperator, isSpecialChar, isSpecialSymbol, signToken, escTranslate]

end Mython

namespace Mython

theorem getMethod_eq_chain : ∀ (c : Class) (mname : String),
    c.getMethod mname = (chainMethods c).find? (fun m => m.name == mname)
  | .mk nm ms p, mname => by
    cases p with
    | none =>
      rw [Class.getMethod.eq_def]
      simp only [chainMethods, List.append_nil]
      cases h : ms.find? (fun m => m.name == mname) <;> simp [h]
    | some par =>
      have ih := getMethod_eq_chain par mname
      rw [Class.getMethod.eq_def]
      simp only [chainMethods]
      rw [find?_append_chain]
      cases h : ms.find? (fun m => m.name == mname) <;> simp [h, ih]
termination_by c => sizeOf c

theorem hasMethod_imp_chainAny (c : Class) (mname : String) (n : Nat)
    (h : c.hasMethod mname n = true) :
    (chainMethods c).any (fun m => m.name == mname && m.formalParams.length == n)
      = true := by
  unfold Class.hasMethod at h
  cases hg : c.getMethod mname with
  | none => rw [hg] at h; cases h
  | some m =>
    rw [hg] at h
    rw [getMethod_eq_chain] at hg
    have hmem := List.mem_of_find?_eq_some hg
    have hname := List.find?_some hg
    rw [List.any_eq_true]
    exact ⟨m, hmem, by simp_all⟩

/-- Claim C1 (amended): `GetMethod` resolves by name only: it returns the
first method of the child-then-parent method chain whose *name* matches,
and `HasMethod(name, n)` holds exactly when that first name match has
`n` formal parameters; in particular, when the child class defines no
method of the name at all, the lookup (arity check included) is the
parent's lookup. -/
theorem method_lookup_name_only :
    (∀ (c : Class) (mname : String),
        c.getMethod mname = (chainMethods c).find? (fun m => m.name == mname))
    ∧ (∀ (c : Class) (mname : String) (n : Nat),
        c.hasMethod mname n =
          (((chainMethods c).find? (fun m => m.name == mname)).map
            (fun m => m.formalParams.length == n)).getD false)
    ∧ (∀ (nm : String) (ms : List Method) (par : Class) (mname : String) (n : Nat),
        ms.find? (fun m => m.name == mname) = none →
        (Class.mk nm ms (some par)).hasMethod mname n = par.hasMethod mname n) := by
  refine ⟨getMethod_eq_chain, ?_, ?_⟩
  · intro c mname n
    unfold Class.hasMethod
    rw [getMethod_eq_chain]
    cases h : (chainMethods c).find? (fun m => m.name == mname) <;> simp
  · intro nm ms par mname n hnone
    unfold Class.hasMethod
    rw [Class.getMethod.eq_def]
    simp only [hnone]

/-- Witness for C1's amended parent-fallback at a child that defines no
method named `f`. -/
theorem method_lookup_name_only_witness :
    (Class.mk "C" [] (some parentWithF)).hasMethod "f" 0 = parentWithF.hasMethod "f" 0 :=
  method_lookup_name_only.2.2 "C" [] parentWithF "f" 0 rfl

/-- Counterexample to C1 as stated: the parent chain of `childWithF`
defines a method `(f, 0)` (in `parentWithF`), yet `HasMethod("f", 0)` is
false, because the child's `(f, 1)` is found first by name and its arity
does not match. -/
theorem hasMethod_ignores_parent_overload :
    childWithF.hasMethod "f" 0 = false ∧
    (chainMethods childWithF).any
      (fun m => m.name == "f" && m.formalParams.length == 0) = true := by
  constructor
  · rfl
  · rfl

end Mython

namespace Mython

theorem strLt_irrefl : ∀ s : List Char, strLt s s = false
  | [] => rfl
  | a :: as => by
    simp only [strLt, Nat.lt_irrefl, if_false]
    exact strLt_irrefl as

/-- Claim C7: the derived comparisons recompose the base dispatches:
`NotEqual = !Equal`, `LessOrEqual = Less || Equal` (short-circuit),
`Greater = !LessOrEqual`, `GreaterOrEqual = !Less`; and the compositions
re-perform the underlying dunder dispatches, observable on `cmpClass`
where one `LessOrEqual` triggers both the `__lt__` and the `__eq__`
side effect. -/
theorem derived_comparisons_recompose :
    (∀ (fuel : Nat) (l r : Obj) (st : St) (b : Bool) (st1 : St),
        Equal fuel l r st = (.ok b, st1) → NotEqual fuel l r st = (.ok !b, st1))
    ∧ (∀ (fuel : Nat) (l r : Obj) (st st1 : St),
        Less fuel l r st = (.ok true, st1) → LessOrEqual fuel l r st = (.ok true, st1))
    ∧ (∀ (fuel : Nat) (l r : Obj) (st st1 : St) (b : Bool) (st2 : St),
        Less fuel l r st = (.ok false, st1) → Equal fuel l r st1 = (.ok b, st2) →
        LessOrEqual fuel l r st = (.ok b, st2))
    ∧ (∀ (fuel : Nat) (l r : Obj) (st : St) (b : Bool) (st1 : St),
        LessOrEqual fuel l r st = (.ok b, st1) → Greater fuel l r st = (.ok !b, st1))
    ∧ (∀ (fuel : Nat) (l r : Obj) (st : St) (b : Bool) (st1 : St),
        Less fuel l r st = (.ok b, st1) → GreaterOrEqual fuel l r st = (.ok !b, st1))
    ∧ LessOrEqual 9 (some (.inst 0)) (some (.number 5)) cmpSt =
        (.ok true, ⟨[⟨cmpClass, []⟩], "lt\neq\n"⟩) := by
  refine ⟨?_, ?_, ?_, ?_, ?_, ?_⟩
  · intro fuel l r st b st1 h
    simp [NotEqual, h]
  · intro fuel l r st st1 h
    simp [LessOrEqual, h]
  · intro fuel l r st st1 b st2 h1 h2
    simp [LessOrEqual, h1, h2]
  · intro fuel l r st b st1 h
    simp [Greater, h]
  · intro fuel l r st b st1 h
    simp [GreaterOrEqual, h]
  · simp [LessOrEqual, Less, Equal, instanceCall, execute, executeSeq, executeArgs,
      printLoop, printEvaluated, printObject, executeVariable, buildParams,
      closureEmplace, closureFind, closureSet, Class.hasMethod, Class.getMethod,
      Method.name, Method.formalParams, Method.body, Class.name,
      IsTrue, cmpClass, cmpSt, List.find?]

/-- Witness for C7's equations at concrete numbers. -/
theorem derived_comparisons_recompose_witness :
    NotEqual 1 (some (.number 1)) (some (.number 2)) ⟨[], ""⟩ =
      (.ok true, ⟨[], ""⟩) :=
  derived_comparisons_recompose.1 1 (some (.number 1)) (some (.number 2)) ⟨[], ""⟩
    false ⟨[], ""⟩ (by simp [Equal])

/-- Claim C8: on every primitive value, `Equal` is reflexive, `Less` is
strict and `LessOrEqual` is reflexive, with the state untouched. -/
theorem primitive_comparisons_reflexive (fuel : Nat) (v : Value) (st : St)
    (h : isPrimitive v = true) :
    Equal fuel (some v) (some v) st = (.ok true, st)
    ∧ Less fuel (some v) (some v) st = (.ok false, st)
    ∧ LessOrEqual fuel (some v) (some v) st = (.ok true, st) := by
  cases v with
  | number n =>
    have hl : Less fuel (some (.number n)) (some (.number n)) st = (.ok false, st) := by
      simp [Less]
    have he : Equal fuel (some (.number n)) (some (.number n)) st = (.ok true, st) := by
      simp [Equal]
    exact ⟨he, hl, by simp [LessOrEqual, hl, he]⟩
  | str s =>
    have hl : Less fuel (some (.str s)) (some (.str s)) st = (.ok false, st) := by
      simp [Less, strLt_irrefl]
    have he : Equal fuel (some (.str s)) (some (.str s)) st = (.ok true, st) := by
      simp [Equal]
    exact ⟨he, hl, by simp [LessOrEqual, hl, he]⟩
  | bool b =>
    have hl : Less fuel (some (.bool b)) (some (.bool b)) st = (.ok false, st) := by
      simp [Less]
    have he : Equal fuel (some (.bool b)) (some (.bool b)) st = (.ok true, st) := by
      simp [Equal]
    exact ⟨he, hl, by simp [LessOrEqual, hl, he]⟩
  | cls c => cases h
  | inst id => cases h

/-- Witness for C8 at the number `3`. -/
theorem primitive_comparisons_reflexive_witness :
    Equal 0 (some (.number 3)) (some (.number 3)) ⟨[], ""⟩ = (.ok true, ⟨[], ""⟩)
    ∧ Less 0 (some (.number 3)) (some (.number 3)) ⟨[], ""⟩ = (.ok false, ⟨[], ""⟩)
    ∧ LessOrEqual 0 (some (.number 3)) (some (.number 3)) ⟨[], ""⟩ =
        (.ok true, ⟨[], ""⟩) :=
  primitive_comparisons_reflexive 0 (.number 3) ⟨[], ""⟩ rfl

end Mython

namespace Mython

/-- Claim C4: dotted access on a non-instance value is asymmetric —
a method call on it completes normally with the empty holder, while a
field assignment through it throws a runtime error (before evaluating
the right-hand side). -/
theorem field_assign_method_call_asymmetry
    (ids : List String) (fieldName mname : String) (rv : Stmt) (args : List Stmt)
    (closure : Closure) (st : St) (v : Obj) (fuel : Nat)
    (h : executeVariable closure st.heap ids = .ok v)
    (hni : isInstanceObj v = false) :
    execute fuel (.fieldAssignment ids fieldName rv) closure st =
      (.err "Cant find field", closure, st)
    ∧ execute fuel (.methodCall (.variableValue ids) mname args) closure st =
      (.ok none, closure, st) := by
  constructor
  · simp only [execute, h]
    cases v with
    | none => rfl
    | some val =>
      cases val with
      | inst id => simp [isInstanceObj] at hni
      | number n => rfl
      | str s => rfl
      | bool b => rfl
      | cls c => rfl
  · simp only [execute, h]
    cases v with
    | none => simp [execCallOn]
    | some val =>
      cases val with
      | inst id => simp [isInstanceObj] at hni
      | number n => simp [execCallOn]
      | str s => simp [execCallOn]
      | bool b => simp [execCallOn]
      | cls c => simp [execCallOn]

/-- Witness for C4: `a = 123; a.b = 456` errors while `a.f()` yields
empty. -/
theorem field_assign_method_call_asymmetry_witness :
    execute 1 (.fieldAssignment ["a"] "b" (.const (some (.number 456))))
        [("a", some (.number 123))] ⟨[], ""⟩ =
      (.err "Cant find field", [("a", some (.number 123))], ⟨[], ""⟩)
    ∧ execute 1 (.methodCall (.variableValue ["a"]) "f" [])
        [("a", some (.number 123))] ⟨[], ""⟩ =
      (.ok none, [("a", some (.number 123))], ⟨[], ""⟩) :=
  field_assign_method_call_asymmetry ["a"] "b" "f" (.const (some (.number 456))) []
    [("a", some (.number 123))] ⟨[], ""⟩ (some (.number 123)) 1
    (by simp [executeVariable, closureFind]) rfl

/-- Claim C5: `or` short-circuits on a truthy left operand and `and` on
a falsy one — the right operand is not executed and the state is exactly
the state after the left operand — and every normal completion of either
operator is a `Bool`. -/
theorem or_and_short_circuit (fuel : Nat) (lhs rhs : Stmt) (closure : Closure)
    (st : St) :
    (∀ (v : Obj) (c1 : Closure) (st1 : St),
        execute fuel lhs closure st = (.ok v, c1, st1) → IsTrue v = true →
        execute fuel (.orStmt lhs rhs) closure st = (.ok (some (.bool true)), c1, st1))
    ∧ (∀ (v : Obj) (c1 : Closure) (st1 : St),
        execute fuel lhs closure st = (.ok v, c1, st1) → IsTrue v = false →
        execute fuel (.andStmt lhs rhs) closure st = (.ok (some (.bool false)), c1, st1))
    ∧ (∀ (r : Obj) (c2 : Closure) (st2 : St),
        execute fuel (.orStmt lhs rhs) closure st = (.ok r, c2, st2) →
        ∃ b : Bool, r = some (.bool b))
    ∧ (∀ (r : Obj) (c2 : Closure) (st2 : St),
        execute fuel (.andStmt lhs rhs) closure st = (.ok r, c2, st2) →
        ∃ b : Bool, r = some (.bool b)) := by
  refine ⟨?_, ?_, ?_, ?_⟩
  · intro v c1 st1 h hT
    simp [execute, h, hT]
  · intro v c1 st1 h hT
    simp [execute, h, hT]
  · intro r c2 st2 h
    rcases hl : execute fuel lhs closure st with ⟨res, cl, stl⟩
    cases res with
    | ok v =>
      by_cases hI : IsTrue v
      · simp [execute, hl, hI] at h
        exact ⟨true, h.1.symm⟩
      · rcases hr : execute fuel rhs cl stl with ⟨res2, c3, st3⟩
        cases res2 with
        | ok w =>
          by_cases hW : IsTrue w
          · simp [execute, hl, hI, hr, hW] at h
            exact ⟨true, h.1.symm⟩
          · simp [execute, hl, hI, hr, hW] at h
            exact ⟨false, h.1.symm⟩
        | err m => simp [execute, hl, hI, hr] at h
        | ret w => simp [execute, hl, hI, hr] at h
        | timeout => simp [execute, hl, hI, hr] at h
    | err m => simp [execute, hl] at h
    | ret w => simp [execute, hl] at h
    | timeout => simp [execute, hl] at h
  · intro r c2 st2 h
    rcases hl : execute fuel lhs closure st with ⟨res, cl, stl⟩
    cases res with
    | ok v =>
      by_cases hI : IsTrue v
      · rcases hr : execute fuel rhs cl stl with ⟨res2, c3, st3⟩
        cases res2 with
        | ok w =>
          by_cases hW : IsTrue w
          · simp [execute, hl, hI, hr, hW] at h
            exact ⟨true, h.1.symm⟩
          · simp [execute, hl, hI, hr, hW] at h
            exact ⟨false, h.1.symm⟩
        | err m => simp [execute, hl, hI, hr] at h
        | ret w => simp [execute, hl, hI, hr] at h
        | timeout => simp [execute, hl, hI, hr] at h
      · simp [execute, hl, hI] at h
        exact ⟨false, h.1.symm⟩
    | err m => simp [execute, hl] at h
    | ret w => simp [execute, hl] at h
    | timeout => simp [execute, hl] at h

/-- Witness for C5: `True or print "NO"` and `False and print "NO"`
complete with no output at all. -/
theorem or_and_short_circuit_witness :
    execute 1 (.orStmt (.const (some (.bool true)))
        (.print [.const (some (.str ("NO").data))])) [] ⟨[], ""⟩ =
      (.ok (some (.bool true)), [], ⟨[], ""⟩)
    ∧ execute 1 (.andStmt (.const (some (.bool false)))
        (.print [.const (some (.str ("NO").data))])) [] ⟨[], ""⟩ =
      (.ok (some (.bool false)), [], ⟨[], ""⟩) :=
  ⟨(or_and_short_circuit 1 (.const (some (.bool true)))
      (.print [.const (some (.str ("NO").data))]) [] ⟨[], ""⟩).1
      (some (.bool true)) [] ⟨[], ""⟩ (by simp [execute]) rfl,
   (or_and_short_circuit 1 (.const (some (.bool false)))
      (.print [.const (some (.str ("NO").data))]) [] ⟨[], ""⟩).2.1
      (some (.bool false)) [] ⟨[], ""⟩ (by simp [execute]) rfl⟩

/-- Claim C10: a method call whose receiver is not an instance, or is an
instance whose class chain defines no method of the called name and
arity, executes none of the argument expressions: the result is the
empty holder and the closure and state are exactly those left by the
receiver evaluation. -/
theorem method_call_skips_arguments (fuel : Nat) (object : Stmt) (mname : String)
    (args : List Stmt) (closure : Closure) (st : St) (v : Obj) (c1 : Closure)
    (st1 : St)
    (h : execute fuel object closure st = (.ok v, c1, st1))
    (hc : chainDefines st1 v mname args.length = false) :
    execute fuel (.methodCall object mname args) closure st = (.ok none, c1, st1) := by
  simp only [execute, h]
  cases v with
  | none => simp [execCallOn]
  | some val =>
    cases val with
    | inst id =>
      cases hh : st1.heap[id]? with
      | none => simp [execCallOn, hh]
      | some inst =>
        have hm : inst.cls.hasMethod mname args.length = false := by
          cases hcm : inst.cls.hasMethod mname args.length with
          | false => rfl
          | true =>
            have hany := hasMethod_imp_chainAny _ _ _ hcm
            simp only [chainDefines, hh] at hc
            rw [hc] at hany
            cases hany
        simp [execCallOn, hh, hm]
    | number n => simp [execCallOn]
    | str s => simp [execCallOn]
    | bool b => simp [execCallOn]
    | cls c => simp [execCallOn]

/-- Witness for C10: calling a missing method `f` on an instance of the
method-less `plainClass` with a printing argument leaves the output
empty and yields the empty holder. -/
theorem method_call_skips_arguments_witness :
    execute 1 (.methodCall (.const (some (.inst 0))) "f"
        [.print [.const (some (.str ("NO").data))]]) [] ⟨[⟨plainClass, []⟩], ""⟩ =
      (.ok none, [], ⟨[⟨plainClass, []⟩], ""⟩) :=
  method_call_skips_arguments 1 (.const (some (.inst 0))) "f"
    [.print [.const (some (.str ("NO").data))]] [] ⟨[⟨plainClass, []⟩], ""⟩
    (some (.inst 0)) [] ⟨[⟨plainClass, []⟩], ""⟩ (by simp [execute])
    (by simp [chainDefines, chainMethods, plainClass])

end Mython

namespace Mython

theorem executeSeq_append (fuel : Nat) (pre post : List Stmt) :
    ∀ (closure : Closure) (st : St),
      executeSeq fuel (pre ++ post) closure st =
        match executeSeq fuel pre closure st with
        | (.ok _, c1, st1) => executeSeq fuel post c1 st1
        | other => other := by
  induction pre with
  | nil => intro closure st; simp [executeSeq]
  | cons s rest ih =>
    intro closure st
    rcases hr : execute fuel s closure st with ⟨res, c1, st1⟩
    cases res with
    | ok v => simp only [List.cons_append, executeSeq, hr, ih]
    | err m => simp [executeSeq, hr]
    | ret v => simp [executeSeq, hr]
    | timeout => simp [executeSeq, hr]

/-- Claim C6: `Return` evaluates its expression and raises a return
signal carrying the holder; the signal passes through `Compound` and
`IfElse` frames unconsumed, aborting the rest of the frame; the nearest
`MethodBody` alone consumes it and yields its payload; a `MethodBody`
whose inner statement finishes without a signal yields empty; and the
signal is distinct from runtime errors, which a `MethodBody` does not
consume. -/
theorem return_signal_semantics :
    (∀ (fuel : Nat) (e : Stmt) (closure : Closure) (st : St) (v : Obj)
        (c1 : Closure) (st1 : St),
        execute fuel e closure st = (.ok v, c1, st1) →
        execute fuel (.returnStmt e) closure st = (.ret v, c1, st1))
    ∧ (∀ (fuel : Nat) (pre : List Stmt) (s : Stmt) (post : List Stmt)
        (closure : Closure) (st : St) (u v : Obj) (c1 c2 : Closure) (st1 st2 : St),
        executeSeq fuel pre closure st = (.ok u, c1, st1) →
        execute fuel s c1 st1 = (.ret v, c2, st2) →
        execute fuel (.compound (pre ++ s :: post)) closure st = (.ret v, c2, st2))
    ∧ (∀ (fuel : Nat) (cnd b : Stmt) (els : Option Stmt) (closure : Closure)
        (st : St) (w v : Obj) (c1 c2 : Closure) (st1 st2 : St),
        execute fuel cnd closure st = (.ok w, c1, st1) → IsTrue w = true →
        execute fuel b c1 st1 = (.ret v, c2, st2) →
        execute fuel (.ifElse cnd b els) closure st = (.ret v, c2, st2))
    ∧ (∀ (fuel : Nat) (cnd b e : Stmt) (closure : Closure)
        (st : St) (w v : Obj) (c1 c2 : Closure) (st1 st2 : St),
        execute fuel cnd closure st = (.ok w, c1, st1) → IsTrue w = false →
        execute fuel e c1 st1 = (.ret v, c2, st2) →
        execute fuel (.ifElse cnd b (some e)) closure st = (.ret v, c2, st2))
    ∧ (∀ (fuel : Nat) (body : Stmt) (closure : Closure) (st : St) (v : Obj)
        (c1 : Closure) (st1 : St),
        execute fuel body closure st = (.ret v, c1, st1) →
        execute fuel (.methodBody body) closure st = (.ok v, c1, st1))
    ∧ (∀ (fuel : Nat) (body : Stmt) (closure : Closure) (st : St) (u : Obj)
        (c1 : Closure) (st1 : St),
        execute fuel body closure st = (.ok u, c1, st1) →
        execute fuel (.methodBody body) closure st = (.ok none, c1, st1))
    ∧ (∀ (fuel : Nat) (body : Stmt) (closure : Closure) (st : St) (m : String)
        (c1 : Closure) (st1 : St),
        execute fuel body closure st = (.err m, c1, st1) →
        execute fuel (.methodBody body) closure st = (.err m, c1, st1)) := by
  refine ⟨?_, ?_, ?_, ?_, ?_, ?_, ?_⟩
  · intro fuel e closure st v c1 st1 h
    simp [execute, h]
  · intro fuel pre s post closure st u v c1 c2 st1 st2 h1 h2
    simp only [execute]
    rw [executeSeq_append, h1]
    simp [executeSeq, h2]
  · intro fuel cnd b els closure st w v c1 c2 st1 st2 h1 hT h2
    simp [execute, h1, hT, h2]
  · intro fuel cnd b e closure st w v c1 c2 st1 st2 h1 hT h2
    simp [execute, h1, hT, executeOpt, h2]
  · intro fuel body closure st v c1 st1 h
    simp [execute, h]
  · intro fuel body closure st u c1 st1 h
    simp [execute, h]
  · intro fuel body closure st m c1 st1 h
    simp [execute, h]

/-- Witness for C6: a method body `return 7; print "NO"` yields `7` with
no output — the signal crossed the `Compound`, skipped the rest of it and
was consumed by the `MethodBody`. -/
theorem return_signal_semantics_witness :
    execute 1 (.methodBody (.compound
        [.returnStmt (.const (some (.number 7))),
         .print [.const (some (.str ("NO").data))]])) [] ⟨[], ""⟩ =
      (.ok (some (.number 7)), [], ⟨[], ""⟩) :=
  return_signal_semantics.2.2.2.2.1 1
    (.compound [.returnStmt (.const (some (.number 7))),
      .print [.const (some (.str ("NO").data))]])
    [] ⟨[], ""⟩ (some (.number 7)) [] ⟨[], ""⟩
    (by simp [execute, executeSeq])

end Mython

namespace Mython

/-- Claim C3 (amended): `NewInstance::Execute` evaluates the arguments
left-to-right, runs `__init__` (when one of matching arity exists) with
`self` bound to the node's member instance — an instance shared by all
executions of the same node — and returns an owning holder of a fresh
heap cell holding a copy of that member (its accumulated field
environment included).  The returned index is the length of the heap at
copy time, so it is distinct from every existing instance. -/
theorem newInstance_copies_shared_member (fuel : Nat) (ref : Nat) (args : List Stmt)
    (closure : Closure) (st : St) (actualArgs : List Obj) (c1 : Closure) (st1 : St)
    (member : Inst)
    (hargs : executeArgs fuel args closure st = (.ok actualArgs, c1, st1))
    (hmem : st1.heap[ref]? = some member) :
    (member.cls.hasMethod "__init__" args.length = false →
      execute fuel (.newInstance ref args) closure st =
        (.ok (some (.inst st1.heap.length)), c1, ⟨st1.heap ++ [member], st1.output⟩))
    ∧ (∀ (w : Obj) (st2 : St) (member2 : Inst),
        member.cls.hasMethod "__init__" args.length = true →
        instanceCall fuel ref "__init__" actualArgs st1 = (.ok w, st2) →
        st2.heap[ref]? = some member2 →
        execute fuel (.newInstance ref args) closure st =
          (.ok (some (.inst st2.heap.length)), c1, ⟨st2.heap ++ [member2], st2.output⟩))
    ∧ ((st1.heap ++ [member])[st1.heap.length]? = some member
        ∧ (st1.heap ++ [member])[ref]? = some member) := by
  refine ⟨?_, ?_, ?_, ?_⟩
  · intro hno
    simp [execute, hargs, execNewOn, hmem, hno]
  · intro w st2 member2 hyes hcall hmem2
    simp [execute, hargs, execNewOn, hmem, hyes, hcall, newInstanceResult, hmem2]
  · exact List.getElem?_concat_length st1.heap member
  · have hlt : ref < st1.heap.length := by
      cases hlen : Nat.decLt ref st1.heap.length with
      | isTrue h => exact h
      | isFalse h =>
        rw [List.getElem?_eq_none (by omega)] at hmem
        cases hmem
    rw [List.getElem?_append_left hlt]
    exact hmem

/-- Witness for C3 (amended), at a class with no `__init__`: executing
the node copies its member instance into a fresh heap cell and returns
that cell's index. -/
theorem newInstance_copies_shared_member_witness :
    execute 1 (.newInstance 0 []) [] ⟨[⟨plainClass, []⟩], ""⟩ =
      (.ok (some (.inst 1)), [], ⟨[⟨plainClass, []⟩, ⟨plainClass, []⟩], ""⟩) :=
  (newInstance_copies_shared_member 1 0 [] [] ⟨[⟨plainClass, []⟩], ""⟩ [] []
    ⟨[⟨plainClass, []⟩], ""⟩ ⟨plainClass, []⟩ (by simp [executeArgs]) rfl).1 rfl

/-- Counterexample to C3 as stated: two executions of one `NewInstance`
node for `ctorClass` — first with `True` (so `__init__` sets `self.x`),
then with `False` (so `__init__` writes nothing).  The second execution
still returns an instance whose field environment already holds
`x = 1`: the receiver of `__init__` is the node's shared member
instance, not a fresh one, and the returned instance copies its
accumulated fields.  (The two returned identities, 1 and 2, are
distinct, as the claim says.) -/
theorem newInstance_field_env_leaks :
    execute 5 (.newInstance 0 [.const (some (.bool true))]) [] st0C3 =
      (.ok (some (.inst 1)), [], ⟨[cellX, cellX], ""⟩)
    ∧ execute 5 (.newInstance 0 [.const (some (.bool false))]) [] ⟨[cellX, cellX], ""⟩ =
      (.ok (some (.inst 2)), [], ⟨[cellX, cellX, cellX], ""⟩)
    ∧ closureFind cellX.fields "x" = some (some (.number 1)) := by
  refine ⟨?_, ?_, ?_⟩
  · simp [execute, executeArgs, executeSeq, instanceCall, executeVariable, buildParams,
      execNewOn, newInstanceResult, fieldAssignResult, executeOpt, execCallOn,
      closureEmplace, closureFind, closureSet, Class.hasMethod, Class.getMethod,
      Method.name, Method.formalParams, Method.body, IsTrue,
      ctorClass, st0C3, cellX, List.find?]
  · simp [execute, executeArgs, executeSeq, instanceCall, executeVariable, buildParams,
      execNewOn, newInstanceResult, fieldAssignResult, executeOpt, execCallOn,
      closureEmplace, closureFind, closureSet, Class.hasMethod, Class.getMethod,
      Method.name, Method.formalParams, Method.body, IsTrue,
      ctorClass, cellX, List.find?]
  · simp [closureFind, cellX]

end Mython
